import Mathlib

/-!
Shallow embedding of the adaptive web-scraper engine in `src/main.py`
(class `ScraperEngine` and its FastAPI data model).

Conventions of the embedding:
* Python strings are Lean `String`; all string manipulation is implemented
  over the underlying `List Char` so every definition reduces in the kernel.
  Python `len` on a string counts code points, as does `List.length` on
  `String.data`.
* The parsed HTML document (selectolax `HTMLParser`) is modelled by `Doc`:
  a tree of `Node`s plus the raw markup string (`parser.html`).  A node
  stores its tag, attributes, its own serialized markup (`node.html`) and
  its children; text is carried by `Node.text` leaves.  `text(strip=True)`
  is the concatenation of the per-leaf stripped texts.  An attribute that
  is present without a value behaves like the empty string (same falsiness
  as Python's `None` in the places the engine reads attributes).
* Effectful collaborators (httpx, Playwright) are modelled by explicit
  oracles: `ScrapeEnv` provides the outcome of the static fetch (fused
  with HTML parsing) and a `PageModel` state machine for the rendered
  page, so the engine's control flow is a pure function of the oracle.
* `urllib.parse.urljoin` is modelled after CPython's `urljoin`/`urlsplit`/
  `urlunsplit` (urlsplit-based variant, no params, without the tab/newline
  sanitisation and without the invalid-IPv6 `ValueError` paths, which do
  not affect the properties proved here).
-/

/-! ### Python-style string primitives (over `List Char`) -/

/-- Python `str.strip()` on a string: drop ASCII whitespace at both ends. -/
def pyStripL (l : List Char) : List Char :=
  ((l.dropWhile Char.isWhitespace).reverse.dropWhile Char.isWhitespace).reverse

def pyStrip (s : String) : String := String.mk (pyStripL s.data)

/-- Python `str.lower()` (ASCII letters; the engine only lowers ASCII data). -/
def pyLower (s : String) : String := String.mk (s.data.map Char.toLower)

/-- Substring test on char lists: `sub` occurs contiguously in `l`
(Python's `sub in l`). The empty pattern matches everywhere. -/
def containsSubL (l sub : List Char) : Bool :=
  if sub.isPrefixOf l then true
  else
    match l with
    | [] => false
    | _ :: t => containsSubL t sub

/-- Python `sub in s` for strings. -/
def pyContains (s sub : String) : Bool := containsSubL s.data sub.data

/-- Python `str.split()` with no argument: split on whitespace runs,
dropping empty pieces. -/
def pySplitWsAux : List Char → List Char → List String
  | cur, [] => if cur.isEmpty then [] else [String.mk cur.reverse]
  | cur, c :: rest =>
    if c.isWhitespace then
      if cur.isEmpty then pySplitWsAux [] rest
      else String.mk cur.reverse :: pySplitWsAux [] rest
    else pySplitWsAux (c :: cur) rest

def pySplitWs (s : String) : List String := pySplitWsAux [] s.data

/-- Python slice `s[:n]`. -/
def pyTake (n : Nat) (s : String) : String := String.mk (s.data.take n)

/-- Python `len(s)`. -/
def pyLen (s : String) : Nat := s.data.length

/-- Python `str.title()`: uppercase the first char of each alphabetic run,
lowercase the rest of the run. -/
def pyTitleAux : Bool → List Char → List Char
  | _, [] => []
  | prevAlpha, c :: rest =>
    if c.isAlpha then
      (if prevAlpha then c.toLower else c.toUpper) :: pyTitleAux true rest
    else c :: pyTitleAux false rest

def pyTitle (s : String) : String := String.mk (pyTitleAux false s.data)

/-- Python `' '.join(ws)` for a list of words. -/
def joinSpace : List String → String
  | [] => ""
  | [w] => w
  | w :: rest => w ++ " " ++ joinSpace rest

/-- Decimal digit character for `d < 10` (`chr(48 + d)`). -/
def digitChar (d : Nat) : Char := Char.ofNat (48 + d)

/-- Reversed decimal digit list of `n`, fuel-driven so it reduces in the
kernel; `natRepr` supplies fuel `n + 1` which always suffices. -/
def natReprRevAux : Nat → Nat → List Char
  | 0, _ => []
  | fuel + 1, n =>
    if n < 10 then [digitChar n]
    else digitChar (n % 10) :: natReprRevAux fuel (n / 10)

/-- Python `str(n)` for a natural number (model of f-string interpolation
of the running section index). -/
def natRepr (n : Nat) : String := String.mk (natReprRevAux (n + 1) n).reverse

/-! ### `urllib.parse` model (CPython `urlsplit` / `urlunsplit` / `urljoin`) -/

/-- Valid scheme characters after the first (`scheme_chars`). -/
def schemeChar (c : Char) : Bool := c.isAlphanum || c == '+' || c == '-' || c == '.'

/-- Scheme detection of CPython `urlsplit`: the text before the first `':'`
must be nonempty, start with an ASCII letter and consist of scheme chars;
returns the (not yet lowercased) scheme and the rest after the colon. -/
def splitSchemeAux : List Char → List Char → Option (List Char × List Char)
  | _, [] => none
  | acc, c :: rest =>
    if c == ':' then
      if acc.isEmpty then none else some (acc.reverse, rest)
    else
      if (if acc.isEmpty then c.isAlpha else schemeChar c) then
        splitSchemeAux (c :: acc) rest
      else none

def splitSchemeL (l : List Char) : Option (List Char × List Char) :=
  splitSchemeAux [] l

/-- Embeds `_splitnetloc`: netloc runs until the first `'/'`, `'?'` or `'#'`. -/
def splitNetlocAux : List Char → List Char → List Char × List Char
  | acc, [] => (acc.reverse, [])
  | acc, c :: rest =>
    if c == '/' || c == '?' || c == '#' then (acc.reverse, c :: rest)
    else splitNetlocAux (c :: acc) rest

/-- Split at the first occurrence of `mark` (Python `s.split(mark, 1)`),
returning `none` when `mark` does not occur. -/
def splitFirstAux (mark : Char) : List Char → List Char → Option (List Char × List Char)
  | _, [] => none
  | acc, c :: rest =>
    if c == mark then some (acc.reverse, rest) else splitFirstAux mark (c :: acc) rest

def splitFirst (mark : Char) (l : List Char) : Option (List Char × List Char) :=
  splitFirstAux mark [] l

structure SplitUrl where
  scheme : List Char
  netloc : List Char
  path : List Char
  query : List Char
  fragment : List Char

/-- Netloc / fragment / query splitting of CPython `urlsplit`, applied to
the part after the scheme. -/
def splitAfterScheme (scheme rest : List Char) : SplitUrl :=
  let nl :=
    if rest.take 2 == ['/', '/'] then splitNetlocAux [] (rest.drop 2)
    else ([], rest)
  let fr :=
    match splitFirst '#' nl.2 with
    | some ab => ab
    | none => (nl.2, [])
  let pq :=
    match splitFirst '?' fr.1 with
    | some ab => ab
    | none => (fr.1, [])
  ⟨scheme, nl.1, pq.1, pq.2, fr.2⟩

/-- CPython `urlsplit(url, defaultScheme)` (allow_fragments=True, without the
control-character sanitisation and IPv6 validation error paths). -/
def pyUrlsplitL (url : List Char) (defScheme : List Char) : SplitUrl :=
  match splitSchemeL url with
  | some sr => splitAfterScheme (sr.1.map Char.toLower) sr.2
  | none => splitAfterScheme defScheme url

/-- CPython `urlunsplit`. -/
def urlunsplitL (p : SplitUrl) : List Char :=
  let url := p.path
  let url :=
    if !p.netloc.isEmpty || url.take 2 == ['/', '/'] then
      '/' :: '/' :: p.netloc ++
        (if !url.isEmpty && url.head? != some '/' then '/' :: url else url)
    else url
  let url := if !p.scheme.isEmpty then p.scheme ++ ':' :: url else url
  let url := if !p.query.isEmpty then url ++ '?' :: p.query else url
  if !p.fragment.isEmpty then url ++ '#' :: p.fragment else url

/-- Embeds `uses_relative` restricted to membership tests that can fire here. -/
def usesRelative : List (List Char) :=
  ["", "ftp", "http", "gopher", "nntp", "imap", "wais", "file", "https",
   "shttp", "mms", "prospero", "rtsp", "rtspu", "sftp", "svn", "svn+ssh",
   "ws", "wss"].map String.data

def usesNetloc : List (List Char) :=
  ["", "ftp", "http", "gopher", "nntp", "telnet", "imap", "wais", "file",
   "mms", "https", "shttp", "snews", "prospero", "rtsp", "rtspu", "rsync",
   "svn", "svn+ssh", "sftp", "nfs", "git", "git+ssh", "ws", "wss", "itms-services"].map String.data

/-- Python `s.split('/')`. -/
def splitSlashAux : List Char → List Char → List (List Char)
  | cur, [] => [cur.reverse]
  | cur, c :: rest =>
    if c == '/' then cur.reverse :: splitSlashAux [] rest
    else splitSlashAux (c :: cur) rest

def splitSlash (l : List Char) : List (List Char) := splitSlashAux [] l

/-- Embeds `segments[1:-1] = filter(None, segments[1:-1])`: drop empty segments,
keeping the first and last elements. -/
def filterMidAux : List (List Char) → List (List Char)
  | [] => []
  | [a] => [a]
  | a :: rest => if a.isEmpty then filterMidAux rest else a :: filterMidAux rest

def filterMiddle : List (List Char) → List (List Char)
  | [] => []
  | [a] => [a]
  | a :: rest => a :: filterMidAux rest

/-- The `'..'` / `'.'` resolution loop of `urljoin`. -/
def resolveSegments (segs : List (List Char)) : List (List Char) :=
  segs.foldl
    (fun acc seg =>
      if seg == ['.', '.'] then acc.dropLast
      else if seg == ['.'] then acc
      else acc ++ [seg])
    []

/-- CPython `urljoin(base, url)` (urlsplit-based, allow_fragments=True). -/
def pyUrljoinL (base url : List Char) : List Char :=
  if base.isEmpty then url
  else if url.isEmpty then base
  else
    let b := pyUrlsplitL base []
    let u := pyUrlsplitL url b.scheme
    if u.scheme != b.scheme || !(usesRelative.contains u.scheme) then url
    else if usesNetloc.contains u.scheme && !u.netloc.isEmpty then
      urlunsplitL ⟨u.scheme, u.netloc, u.path, u.query, u.fragment⟩
    else
      let netloc := if usesNetloc.contains u.scheme then b.netloc else u.netloc
      if u.path.isEmpty then
        let query := if u.query.isEmpty then b.query else u.query
        urlunsplitL ⟨u.scheme, netloc, b.path, query, u.fragment⟩
      else
        let baseParts := splitSlash b.path
        let baseParts :=
          if baseParts.getLastD [] != [] then baseParts.dropLast else baseParts
        let segments :=
          if u.path.take 1 == ['/'] then splitSlash u.path
          else filterMiddle (baseParts ++ splitSlash u.path)
        let resolved := resolveSegments segments
        let resolved :=
          if segments.getLastD [] == ['.'] || segments.getLastD [] == ['.', '.'] then
            resolved ++ [([] : List Char)]
          else resolved
        let joined := List.intercalate ['/'] resolved
        let path := if joined.isEmpty then ['/'] else joined
        urlunsplitL ⟨u.scheme, netloc, path, u.query, u.fragment⟩

/-- Embeds `urllib.parse.urljoin` on strings. -/
def urljoin (base url : String) : String := String.mk (pyUrljoinL base.data url.data)

/-- A URL is absolute when it carries a scheme (RFC 3986 absolute-URI shape,
exactly the prefix CPython's scheme detection accepts). -/
def isAbsoluteUrl (s : String) : Bool := (splitSchemeL s.data).isSome

/-- Embeds `ScrapeRequest.validate_url`: the inbound URL must start with
`http://` or `https://` (`str.startswith` on the tuple of prefixes). -/
def validate_url (v : String) : Bool :=
  "http://".data.isPrefixOf v.data || "https://".data.isPrefixOf v.data

/-! ### DOM model (selectolax `HTMLParser` as used by the engine) -/

/-- A parsed DOM node.  `elem tag attrs raw children` carries the tag name,
the attribute list, the node's serialized markup (`node.html`) and its
children; `text` is a text node. -/
inductive Node where
  | elem : String → List (String × String) → String → List Node → Node
  | text : String → Node

mutual
/-- Embeds `node.text(strip=True)`: concatenation of the stripped text of every
text node in the subtree, in document order. -/
def Node.textStrip : Node → String
  | Node.text s => pyStrip s
  | Node.elem _ _ _ cs => textStripList cs

def textStripList : List Node → String
  | [] => ""
  | n :: ns => Node.textStrip n ++ textStripList ns
end

mutual
/-- Preorder (document-order) traversal of a node's subtree, the node
itself included. -/
def Node.preorder : Node → List Node
  | Node.text s => [Node.text s]
  | Node.elem t a r cs => Node.elem t a r cs :: preorderList cs

def preorderList : List Node → List Node
  | [] => []
  | n :: ns => Node.preorder n ++ preorderList ns
end

def Node.tagName : Node → String
  | Node.elem t _ _ _ => t
  | Node.text _ => ""

def Node.rawHtml : Node → String
  | Node.elem _ _ r _ => r
  | Node.text s => s

def Node.isElem : Node → Bool
  | Node.elem _ _ _ _ => true
  | Node.text _ => false

def Node.childElems : Node → List Node
  | Node.elem _ _ _ cs => cs.filter Node.isElem
  | Node.text _ => []

/-- Embeds `node.attributes.get(key, default)`. -/
def attrGet (n : Node) (key default : String) : String :=
  match n with
  | Node.elem _ attrs _ _ =>
    match attrs.lookup key with
    | some v => v
    | none => default
  | Node.text _ => default

/-- Does a node match one of the given tag names? -/
def matchesTags (tags : List String) (n : Node) : Bool :=
  match n with
  | Node.elem t _ _ _ => tags.contains t
  | Node.text _ => false

/-- Embeds `elem.css('t1, t2, ...')`: descendant elements (the element itself
excluded, CSS scoping) with one of the given tags, in document order. -/
def Node.cssTags (n : Node) (tags : List String) : List Node :=
  match n with
  | Node.elem _ _ _ cs => (preorderList cs).filter (matchesTags tags)
  | Node.text _ => []

/-- A parsed document: the raw markup (`parser.html`) plus the node tree. -/
structure Doc where
  htmlStr : String
  nodes : List Node

def Doc.allNodes (d : Doc) : List Node := preorderList d.nodes

/-- Embeds `parser.css(tag)` for a plain tag selector. -/
def Doc.cssTag (d : Doc) (tag : String) : List Node :=
  d.allNodes.filter (matchesTags [tag])

/-- Embeds `parser.css_first(tag)`. -/
def Doc.cssFirstTag (d : Doc) (tag : String) : Option Node :=
  (d.cssTag tag).head?

/-- Embeds `parser.css_first('#i')`: first element whose `id` attribute is `i`. -/
def Doc.cssFirstId (d : Doc) (i : String) : Option Node :=
  (d.allNodes.filter (fun n => n.isElem && attrGet n "id" "\x00missing" == i)).head?

/-- Embeds `parser.css_first('tag[attr="val"]')`. -/
def Doc.cssFirstTagAttr (d : Doc) (tag attr val : String) : Option Node :=
  (d.allNodes.filter
    (fun n => matchesTags [tag] n && attrGet n attr "\x00missing" == val)).head?

/-- Embeds `parser.css('body > div')`: element children of each `body`, filtered
to `div`, in document order. -/
def Doc.bodyChildDivs (d : Doc) : List Node :=
  (d.cssTag "body").flatMap (fun b => b.childElems.filter (matchesTags ["div"]))

/-! ### Result data model (the pydantic models) -/

structure LinkItem where
  text : String
  href : String
deriving DecidableEq

structure ImageItem where
  src : String
  alt : String
deriving DecidableEq

structure SectionContent where
  headings : List String
  text : String
  links : List LinkItem
  images : List ImageItem
  lists : List (List String)
  tables : List (List (List String))
deriving DecidableEq

structure Section where
  id : String
  type : String
  label : String
  sourceUrl : String
  content : SectionContent
  rawHtml : String
  truncated : Bool
deriving DecidableEq

structure Meta where
  title : String
  description : String
  language : String
  canonical : Option String
deriving DecidableEq

structure Interactions where
  clicks : List String
  scrolls : Nat
  pages : List String
deriving DecidableEq

structure Error where
  message : String
  phase : String
deriving DecidableEq

structure ScrapeResult where
  url : String
  scrapedAt : String
  meta : Meta
  sections : List Section
  interactions : Interactions
  errors : List Error
deriving DecidableEq

/-! ### `ScraperEngine`: pure extraction pipeline -/

/-- Embeds `ScraperEngine._determine_section_type`. -/
def determine_section_type (tag_name : String) (_headings : List String)
    (text : String) : String :=
  if tag_name == "header" then "hero"
  else if tag_name == "nav" then "nav"
  else if tag_name == "footer" then "footer"
  else
    let text_lower := pyLower text
    if ["pricing", "price", "$", "plan"].any (fun w => pyContains text_lower w) then "pricing"
    else if ["faq", "question", "answer"].any (fun w => pyContains text_lower w) then "faq"
    else if pyContains text_lower "grid" || pyContains text_lower "gallery" then "grid"
    else "section"

/-- Embeds `ScraperEngine._generate_label`. -/
def generate_label (headings : List String) (text : String)
    (section_type : String) : String :=
  match headings with
  | h :: _ => h
  | [] =>
    let words := (pySplitWs text).take 7
    if !words.isEmpty then
      let label := joinSpace words
      if (pySplitWs text).length > 7 then label ++ "..." else label
    else pyTitle section_type

/-- Embeds `f"{section_type}-{section_id}"`. -/
def mkSectionId (section_type : String) (section_id : Nat) : String :=
  section_type ++ "-" ++ natRepr section_id

/-- Embeds `ScraperEngine._parse_section`.  The Python function is annotated
`Optional[Section]` but every path returns a `Section`, so the embedding
is total. -/
def parse_section (el : Node) (section_id : Nat) (tag_name : String)
    (source_url : String) : Section :=
  let headings := (el.cssTags ["h1", "h2", "h3", "h4", "h5", "h6"]).filterMap
    (fun h => let t := h.textStrip; if t != "" then some t else none)
  let text := el.textStrip
  let links := (el.cssTags ["a"]).filterMap (fun a =>
    let href := attrGet a "href" ""
    if href != "" then some (LinkItem.mk a.textStrip (urljoin source_url href))
    else none)
  let images := (el.cssTags ["img"]).filterMap (fun img =>
    let src0 := attrGet img "src" ""
    let src := if src0 != "" then src0 else attrGet img "data-src" ""
    if src != "" then some (ImageItem.mk (urljoin source_url src) (attrGet img "alt" ""))
    else none)
  let lists := (el.cssTags ["ul", "ol"]).filterMap (fun ul =>
    let list_items := (ul.cssTags ["li"]).map Node.textStrip
    if !list_items.isEmpty then some list_items else none)
  let tables := (el.cssTags ["table"]).filterMap (fun tb =>
    let table_data := (tb.cssTags ["tr"]).filterMap (fun row =>
      let row_data := (row.cssTags ["td", "th"]).map Node.textStrip
      if !row_data.isEmpty then some row_data else none)
    if !table_data.isEmpty then some table_data else none)
  let section_type := determine_section_type tag_name headings text
  let label := generate_label headings text section_type
  let raw := el.rawHtml
  let truncated := pyLen raw > 1000
  let raw_html := if truncated then pyTake 1000 raw ++ "..." else raw
  { id := mkSectionId section_type section_id
    type := section_type
    label := label
    sourceUrl := source_url
    content := { headings := headings, text := text, links := links,
                 images := images, lists := lists, tables := tables }
    rawHtml := raw_html
    truncated := truncated }

/-- Embeds `ScraperEngine._create_empty_section`. -/
def create_empty_section (source_url : String) : Section :=
  { id := "section-0"
    type := "unknown"
    label := "Content"
    sourceUrl := source_url
    content := { headings := [], text := "", links := [], images := [],
                 lists := [], tables := [] }
    rawHtml := ""
    truncated := false }

/-- One candidate-processing loop of `_extract_sections`: build a section
per candidate `(element, tag)` with the running counter, keep it when
`keep` holds and only then advance the counter. -/
def sections_go (keep : Section → Bool) (source_url : String) :
    List (Node × String) → Nat → List Section
  | [], _ => []
  | (el, tag) :: rest, i =>
    let s := parse_section el i tag source_url
    if keep s then s :: sections_go keep source_url rest (i + 1)
    else sections_go keep source_url rest i

def semantic_selectors : List String :=
  ["header", "nav", "main", "section", "article", "aside", "footer"]

/-- Candidates of the semantic tier: for each selector in order, all
matching elements in document order, paired with the selector. -/
def semantic_candidates (d : Doc) : List (Node × String) :=
  semantic_selectors.flatMap (fun sel => (d.cssTag sel).map (fun el => (el, sel)))

/-- Tier 1 of `_extract_sections`: semantic containers, kept when the
section's stripped flattened text is truthy. -/
def semantic_sections (d : Doc) (source_url : String) : List Section :=
  sections_go (fun s => pyStrip s.content.text != "") source_url
    (semantic_candidates d) 0

/-- Tier 2: first 10 `body > div` candidates (tag name `'section'` is
passed), kept when the text length exceeds 50. -/
def div_sections (d : Doc) (source_url : String) : List Section :=
  sections_go (fun s => pyLen s.content.text > 50) source_url
    ((d.bodyChildDivs.take 10).map (fun el => (el, "section"))) 0

/-- Embeds `ScraperEngine._extract_sections`. -/
def extract_sections (d : Doc) (source_url : String) : List Section :=
  let sections := semantic_sections d source_url
  let sections :=
    if sections.isEmpty then div_sections d source_url else sections
  let sections :=
    if sections.isEmpty then
      match d.cssFirstTag "body" with
      | some body => [parse_section body 0 "section" source_url]
      | none => []
    else sections
  if sections.isEmpty then [create_empty_section source_url] else sections

/-- Embeds `ScraperEngine._extract_meta`. -/
def extract_meta (d : Doc) : Meta :=
  let title :=
    match d.cssFirstTag "title" with
    | some el => el.textStrip
    | none =>
      match d.cssFirstTagAttr "meta" "property" "og:title" with
      | some el => attrGet el "content" ""
      | none => ""
  let description :=
    match d.cssFirstTagAttr "meta" "name" "description" with
    | some el => attrGet el "content" ""
    | none =>
      match d.cssFirstTagAttr "meta" "property" "og:description" with
      | some el => attrGet el "content" ""
      | none => ""
  let language :=
    match d.cssFirstTag "html" with
    | some el => attrGet el "lang" "en"
    | none => "en"
  let canonical :=
    match d.cssFirstTagAttr "link" "rel" "canonical" with
    | some el => some (attrGet el "href" "")
    | none => none
  { title := title, description := description, language := language,
    canonical := canonical }

def js_indicators : List String :=
  ["id=\"root\"", "id=\"__next\"", "id=\"app\"", "data-reactroot", "ng-app"]

def root_container_ids : List String := ["root", "__next", "app"]

/-- Embeds `ScraperEngine._needs_js_rendering`. -/
def needs_js_rendering (d : Doc) : Bool :=
  match d.cssFirstTag "body" with
  | none => true
  | some body =>
    let text_content := body.textStrip
    if pyLen text_content < 200 then true
    else
      if js_indicators.any (fun ind => pyContains d.htmlStr ind) then
        root_container_ids.any (fun i =>
          match d.cssFirstId i with
          | some el => pyLen el.textStrip < 100
          | none => false)
      else false

/-! ### Rendered-page oracle and interaction simulation

The Playwright page is an external stateful collaborator.  `PageModel σ`
gives its observable interface as a deterministic state machine over an
abstract page-state type `σ`; element handles are numbers.  Operations
that the engine wraps in `try/except` report failure through a `Bool`
(an exception that the engine swallows or that aborts a pattern), paired
with the page state after the attempt. -/

structure PageModel (σ : Type) where
  querySelectorAll : σ → String → List Nat
  querySelector : σ → String → Option Nat
  click : σ → Nat → Bool × σ
  waitLoadState : σ → Bool × σ
  wait : σ → Nat → σ
  currentUrl : σ → String
  evalRemove : σ → String → σ
  scroll : σ → Bool × σ
  content : σ → Doc

/-- Mutable per-request fields of `ScraperEngine` (`__init__`). -/
structure EngineState where
  url : String
  visited_pages : List String
  clicks_performed : List String
  scroll_count : Nat
  errors : List Error
deriving DecidableEq

def initEngineState (url : String) : EngineState :=
  { url := url, visited_pages := [url], clicks_performed := [],
    scroll_count := 0, errors := [] }

def noise_selectors : List String :=
  ["[id*=\"cookie\"]", "[class*=\"cookie\"]", "[id*=\"banner\"]",
   "[class*=\"banner\"]", "[id*=\"modal\"]", "[class*=\"modal\"]",
   "[id*=\"popup\"]", "[class*=\"popup\"]", "[role=\"dialog\"]",
   ".newsletter-popup", "#onetrust-banner-sdk"]

/-- Embeds `ScraperEngine._remove_noise`: best-effort removal via script
evaluation, failures swallowed. -/
def remove_noise {σ : Type} (pm : PageModel σ) (s : σ) : σ :=
  noise_selectors.foldl pm.evalRemove s

def tab_selectors : List String :=
  ["[role=\"tab\"]", "button[aria-controls]", ".tab", "[data-tab]"]

def load_more_selectors : List String :=
  ["button:has-text(\"Load more\")", "button:has-text(\"Show more\")",
   "button:has-text(\"See more\")", "[class*=\"load-more\"]",
   "[class*=\"show-more\"]"]

/-- The inner tab loop: click up to the first 3 matches (`tabs[:3]`),
waiting 1000 ms after each successful click and recording
`"<selector>[<index>]"`; a click failure skips the record. -/
def click_tabs {σ : Type} (pm : PageModel σ) (sel : String) :
    List Nat → Nat → σ → List String → σ × List String
  | [], _, s, clicks => (s, clicks)
  | h :: rest, i, s, clicks =>
    let (ok, s1) := pm.click s h
    if ok then
      let s2 := pm.wait s1 1000
      click_tabs pm sel rest (i + 1) s2
        (clicks ++ [sel ++ "[" ++ natRepr i ++ "]"])
    else click_tabs pm sel rest (i + 1) s1 clicks

/-- The tab-selector loop of `_perform_clicks`: stop after the first
pattern that matches more than one element. -/
def perform_clicks_tabs {σ : Type} (pm : PageModel σ) :
    List String → σ → List String → σ × List String
  | [], s, clicks => (s, clicks)
  | sel :: rest, s, clicks =>
    let tabs := pm.querySelectorAll s sel
    if tabs.length > 1 then click_tabs pm sel (tabs.take 3) 0 s clicks
    else perform_clicks_tabs pm rest s clicks

/-- One load-more pattern of `_perform_clicks`: up to `fuel` (3) rounds of
look-up-and-click; a missing button ends the rounds, a click failure
raises out of the pattern's `try` (ending it with no further records).
Returns the page state, the click records appended by this pattern, and
the number of `query_selector` look-ups performed. -/
def load_more_attempts {σ : Type} (pm : PageModel σ) (sel : String) :
    Nat → σ → σ × List String × Nat
  | 0, s => (s, [], 0)
  | fuel + 1, s =>
    match pm.querySelector s sel with
    | some h =>
      let (ok, s1) := pm.click s h
      if ok then
        let s2 := pm.wait s1 1500
        let (s3, added, lookups) := load_more_attempts pm sel fuel s2
        (s3, sel :: added, lookups + 1)
      else (s1, [], 1)
    | none => (s, [], 1)

/-- The load-more loop of `_perform_clicks` over all patterns. -/
def perform_clicks_loadmore {σ : Type} (pm : PageModel σ) :
    List String → σ → List String → σ × List String
  | [], s, clicks => (s, clicks)
  | sel :: rest, s, clicks =>
    let (s1, added, _) := load_more_attempts pm sel 3 s
    perform_clicks_loadmore pm rest s1 (clicks ++ added)

/-- Embeds `ScraperEngine._perform_clicks`. -/
def perform_clicks {σ : Type} (pm : PageModel σ) (s : σ)
    (clicks : List String) : σ × List String :=
  let (s1, clicks1) := perform_clicks_tabs pm tab_selectors s clicks
  perform_clicks_loadmore pm load_more_selectors s1 clicks1

def next_selectors : List String :=
  ["a:has-text(\"Next\")", "a:has-text(\"next\")", "[rel=\"next\"]",
   ".pagination a:last-child", "a[aria-label*=\"next\" i]"]

/-- The inner next-link loop of `_perform_scroll_pagination`: try the
selectors in order; on the first found link, click it and wait for
network idle (a failure in either continues with the next selector);
append the new URL only when it differs from the current URL and was
not visited before; `break` after the first found-and-clicked link
whether or not the URL advanced.  Returns the page state, the current
URL, the visited list and whether this round made progress. -/
def try_next_links {σ : Type} (pm : PageModel σ) :
    List String → σ → String → List String → σ × String × List String × Bool
  | [], s, cur, visited => (s, cur, visited, false)
  | sel :: rest, s, cur, visited =>
    match pm.querySelector s sel with
    | none => try_next_links pm rest s cur visited
    | some h =>
      let (ok1, s1) := pm.click s h
      if ok1 then
        let (ok2, s2) := pm.waitLoadState s1
        if ok2 then
          let new_url := pm.currentUrl s2
          if new_url != cur && !(visited.contains new_url) then
            (pm.wait s2 1000, new_url, visited ++ [new_url], true)
          else (s2, cur, visited, false)
        else try_next_links pm rest s2 cur visited
      else try_next_links pm rest s1 cur visited

/-- The depth loop (`for depth in range(3)`): `pagination_attempted` is
sticky — once some round progressed, later no-progress rounds no longer
break the loop. -/
def pagination_rounds {σ : Type} (pm : PageModel σ) :
    Nat → σ → String → List String → Bool → σ × List String × Bool
  | 0, s, _, visited, flag => (s, visited, flag)
  | depth + 1, s, cur, visited, flag =>
    let (s1, cur1, visited1, progressed) := try_next_links pm next_selectors s cur visited
    let flag1 := flag || progressed
    if !flag1 then (s1, visited1, flag1)
    else pagination_rounds pm depth s1 cur1 visited1 flag1

/-- The infinite-scroll fallback: up to 3 scroll attempts, the counter
incremented only when the scroll script and wait did not raise. -/
def scroll_rounds {σ : Type} (pm : PageModel σ) :
    Nat → σ → Nat → σ × Nat
  | 0, s, count => (s, count)
  | n + 1, s, count =>
    let (ok, s1) := pm.scroll s
    if ok then scroll_rounds pm n (pm.wait s1 2000) (count + 1)
    else scroll_rounds pm n s1 count

/-- Embeds `ScraperEngine._perform_scroll_pagination`. -/
def perform_scroll_pagination {σ : Type} (pm : PageModel σ) (s : σ)
    (st : EngineState) : σ × EngineState :=
  let cur := pm.currentUrl s
  let (s1, visited1, flag) := pagination_rounds pm 3 s cur st.visited_pages false
  let st1 := { st with visited_pages := visited1 }
  if !flag || visited1.length < 3 then
    let (s2, count) := scroll_rounds pm 3 s1 st1.scroll_count
    (s2, { st1 with scroll_count := count })
  else (s1, st1)

/-- Outcome of `page.goto(url, wait_until='networkidle', timeout=30000)`:
success, a `PlaywrightTimeout` (the partially loaded page state is still
available), or another exception with its message. -/
inductive GotoOutcome (σ : Type) where
  | ok : σ → GotoOutcome σ
  | timeout : String → σ → GotoOutcome σ
  | fail : String → GotoOutcome σ

/-- Embeds `ScraperEngine._fetch_with_playwright`, as a function of the page
oracle.  On successful navigation the interaction steps run (their own
failures are swallowed inside them); a navigation timeout records a
`render` error and still returns the page content; any other failure
records a `render` error and re-raises (`Except.error`). -/
def fetch_with_playwright {σ : Type} (pm : PageModel σ)
    (goto : GotoOutcome σ) (st : EngineState) :
    Except (String × EngineState) (Doc × EngineState) :=
  match goto with
  | GotoOutcome.ok s0 =>
    let s1 := pm.wait s0 2000
    let s2 := remove_noise pm s1
    let (s3, clicks) := perform_clicks pm s2 st.clicks_performed
    let st1 := { st with clicks_performed := clicks }
    let (s4, st2) := perform_scroll_pagination pm s3 st1
    Except.ok (pm.content s4, st2)
  | GotoOutcome.timeout msg s0 =>
    let st1 := { st with errors := st.errors ++ [⟨"Timeout: " ++ msg, "render"⟩] }
    Except.ok (pm.content s0, st1)
  | GotoOutcome.fail msg =>
    Except.error (msg, { st with errors := st.errors ++ [⟨msg, "render"⟩] })

/-- Environment of one `scrape` call: the outcome of the static fetch
(fused with HTML parsing; `Except.error` is the exception `_fetch_static`
re-raises, with its message) and the rendered-page oracle. -/
structure ScrapeEnv (σ : Type) where
  fetchStatic : Except String Doc
  pm : PageModel σ
  goto : GotoOutcome σ

/-- Embeds `ScraperEngine.scrape`, with `scrapedAt` supplied as a parameter.
`_fetch_static` appends a `fetch`-phase error before re-raising; the
outer handler appends a `scrape`-phase error and returns the partial
result with empty sections and default meta. -/
def scrape {σ : Type} (env : ScrapeEnv σ) (url : String)
    (scrapedAt : String) : ScrapeResult :=
  let st0 := initEngineState url
  let degraded_result := fun (st : EngineState) (msg : String) =>
    { url := url
      scrapedAt := scrapedAt
      meta := { title := "", description := "", language := "en", canonical := none }
      sections := []
      interactions := { clicks := st.clicks_performed, scrolls := st.scroll_count,
                        pages := st.visited_pages }
      errors := st.errors ++ [⟨msg, "scrape"⟩] : ScrapeResult }
  match env.fetchStatic with
  | Except.error msg =>
    degraded_result { st0 with errors := st0.errors ++ [⟨msg, "fetch"⟩] } msg
  | Except.ok d0 =>
    if needs_js_rendering d0 then
      let st1 := { st0 with errors := st0.errors ++
        [⟨"Static content insufficient, using JS rendering", "detection"⟩] }
      match fetch_with_playwright env.pm env.goto st1 with
      | Except.ok (d1, st2) =>
        { url := url
          scrapedAt := scrapedAt
          meta := extract_meta d1
          sections := extract_sections d1 url
          interactions := { clicks := st2.clicks_performed, scrolls := st2.scroll_count,
                            pages := st2.visited_pages }
          errors := st2.errors }
      | Except.error (msg, st2) => degraded_result st2 msg
    else
      { url := url
        scrapedAt := scrapedAt
        meta := extract_meta d0
        sections := extract_sections d0 url
        interactions := { clicks := st0.clicks_performed, scrolls := st0.scroll_count,
                          pages := st0.visited_pages }
        errors := st0.errors }

/-! ### Proof-side decoders and concrete fixtures -/

/-- Decimal value of a digit character (left inverse of `digitChar`). -/
def digitVal (c : Char) : Nat := c.toNat - 48

/-- Value of a digit list in least-significant-first order (left inverse
of `natReprRevAux`). -/
def decodeRev : List Char → Nat
  | [] => 0
  | c :: rest => digitVal c + 10 * decodeRev rest

/-- Scenario C fixture: three `<section>` elements, the middle one empty
of text. -/
def sec7A : Node :=
  Node.elem "section" [] "<section><p>Alpha beta gamma content here</p></section>"
    [Node.elem "p" [] "<p>Alpha beta gamma content here</p>"
      [Node.text "Alpha beta gamma content here"]]

def sec7B : Node := Node.elem "section" [] "<section></section>" []

def sec7C : Node :=
  Node.elem "section" [] "<section>Delta epsilon items text</section>"
    [Node.text "Delta epsilon items text"]

def url7 : String := "https://ex.com/"

def doc7 : Doc :=
  { htmlStr := "<html><body><section>...</section></body></html>"
    nodes := [Node.elem "html" [] "" [Node.elem "body" [] "" [sec7A, sec7B, sec7C]]] }

/-- Body-fallback fixture: a `<body>` with no text, no semantic containers
and no `div` children. -/
def body10 : Node := Node.elem "body" [] "<body></body>" []

def url10 : String := "https://ex.com/empty"

def doc10 : Doc :=
  { htmlStr := "<html><body></body></html>"
    nodes := [Node.elem "html" [] "" [body10]] }

/-- A page oracle with no matching elements and inert operations. -/
def trivialPm : PageModel Unit :=
  { querySelectorAll := fun _ _ => []
    querySelector := fun _ _ => none
    click := fun s _ => (false, s)
    waitLoadState := fun s => (true, s)
    wait := fun s _ => s
    currentUrl := fun _ => "u"
    evalRemove := fun s _ => s
    scroll := fun s => (true, s)
    content := fun _ => doc10 }

/-- Environment whose static fetch raises a connection error. -/
def envFailC1 : ScrapeEnv Unit :=
  { fetchStatic := Except.error "Connection refused"
    pm := trivialPm
    goto := GotoOutcome.fail "unreachable" }

/-- A second connection-error environment (Scenario D). -/
def envFailC5 : ScrapeEnv Unit :=
  { fetchStatic := Except.error "ConnectError: All connection attempts failed"
    pm := trivialPm
    goto := GotoOutcome.fail "unreachable" }

/-- A static document whose body text is long enough to stay static. -/
def docLong : Doc :=
  { htmlStr := "<html>...</html>"
    nodes := [Node.elem "html" [] ""
      [Node.elem "body" [] "<body>...</body>"
        [Node.elem "section" [] "<section>...</section>"
          [Node.text (String.mk (List.replicate 250 'a'))]]]] }

/-- Environment with a successful static fetch of `docLong`. -/
def envOkC1 : ScrapeEnv Unit :=
  { fetchStatic := Except.ok docLong
    pm := trivialPm
    goto := GotoOutcome.ok () }

/-- Page oracle over state `Bool` ("the load-more button is present"):
the button exists in state `true`, clicking it succeeds and moves the
page to state `false`, where no button matches. -/
def togglePm : PageModel Bool :=
  { querySelectorAll := fun _ _ => []
    querySelector := fun s _ => if s then some 0 else none
    click := fun _ _ => (true, false)
    waitLoadState := fun s => (true, s)
    wait := fun s _ => s
    currentUrl := fun _ => "u"
    evalRemove := fun s _ => s
    scroll := fun s => (true, s)
    content := fun _ => doc10 }

/-- Link/image fixture for URL resolution: a relative href, an image with
only `data-src`, and an anchor with an empty href (dropped). -/
def elemC4 : Node :=
  Node.elem "section" [] "<section>...</section>"
    [Node.elem "a" [("href", "b/c.html")] "" [Node.text "rel link"],
     Node.elem "a" [("href", "")] "" [Node.text "empty href"],
     Node.elem "img" [("data-src", "/img/x.png"), ("alt", "pic")] "" []]

/-- Truncation fixtures: serialized markup of 1200 and of 3 characters. -/
def elemBigRaw : Node :=
  Node.elem "section" [] (String.mk (List.replicate 1200 'x')) [Node.text "hello world"]

def elemSmallRaw : Node := Node.elem "section" [] "<p>" [Node.text "hi"]

/-! ### Helper lemmas -/

theorem strData_append (a b : String) : (a ++ b).data = a.data ++ b.data := by
  cases a; cases b; rfl

theorem isPrefixOf_exists {p l : List Char} (h : p.isPrefixOf l = true) :
    ∃ t, l = p ++ t := by
  induction p generalizing l with
  | nil => exact ⟨l, rfl⟩
  | cons c cs ih =>
    cases l with
    | nil => simp [List.isPrefixOf] at h
    | cons d ds =>
      simp only [List.isPrefixOf, Bool.and_eq_true, beq_iff_eq] at h
      obtain ⟨rfl, h2⟩ := h
      obtain ⟨t, rfl⟩ := ih h2
      exact ⟨t, rfl⟩

theorem digitVal_digitChar {d : Nat} (h : d < 10) :
    digitVal (digitChar d) = d := by
  interval_cases d <;> decide

theorem decodeRev_natReprRevAux :
    ∀ (fuel n : Nat), n < 10 ^ fuel → decodeRev (natReprRevAux fuel n) = n := by
  intro fuel
  induction fuel with
  | zero =>
    intro n h
    simp at h
    simp [h, natReprRevAux, decodeRev]
  | succ f ih =>
    intro n h
    by_cases h10 : n < 10
    · simp [natReprRevAux, h10, decodeRev, digitVal_digitChar h10]
    · have hdiv : n / 10 < 10 ^ f := by
        rw [Nat.div_lt_iff_lt_mul (by norm_num)]
        calc n < 10 ^ (f + 1) := h
        _ = 10 ^ f * 10 := by ring
      simp only [natReprRevAux, if_neg h10, decodeRev]
      rw [digitVal_digitChar (Nat.mod_lt n (by norm_num)), ih _ hdiv]
      omega

theorem natRepr_injective {m n : Nat} (h : natRepr m = natRepr n) : m = n := by
  have hm : m < 10 ^ (m + 1) :=
    lt_of_lt_of_le (Nat.lt_pow_self (by norm_num) m)
      (Nat.pow_le_pow_right (by norm_num) (Nat.le_succ m))
  have hn : n < 10 ^ (n + 1) :=
    lt_of_lt_of_le (Nat.lt_pow_self (by norm_num) n)
      (Nat.pow_le_pow_right (by norm_num) (Nat.le_succ n))
  have hdata : (natReprRevAux (m + 1) m).reverse = (natReprRevAux (n + 1) n).reverse := by
    have := congrArg String.data h
    simpa [natRepr] using this
  have hlists : natReprRevAux (m + 1) m = natReprRevAux (n + 1) n := by
    have := congrArg List.reverse hdata
    simpa using this
  calc m = decodeRev (natReprRevAux (m + 1) m) := (decodeRev_natReprRevAux _ _ hm).symm
  _ = decodeRev (natReprRevAux (n + 1) n) := by rw [hlists]
  _ = n := decodeRev_natReprRevAux _ _ hn
theorem noDash_determine (tag : String) (hs : List String) (txt : String) :
    '-' ∉ (determine_section_type tag hs txt).data := by
  unfold determine_section_type
  dsimp only
  split_ifs <;> decide

theorem append_dash_inj :
    ∀ (a b r1 r2 : List Char), '-' ∉ a → '-' ∉ b →
      a ++ '-' :: r1 = b ++ '-' :: r2 → a = b ∧ r1 = r2 := by
  intro a
  induction a with
  | nil =>
    intro b r1 r2 _ hb h
    cases b with
    | nil =>
      simp only [List.nil_append, List.cons.injEq] at h
      exact ⟨rfl, h.2⟩
    | cons c cs =>
      simp only [List.nil_append, List.cons_append, List.cons.injEq] at h
      obtain ⟨h1, _⟩ := h
      rw [← h1] at hb
      exact absurd (List.mem_cons_self _ _) hb
  | cons c cs ih =>
    intro b r1 r2 ha hb h
    cases b with
    | nil =>
      simp only [List.cons_append, List.nil_append, List.cons.injEq] at h
      obtain ⟨h1, _⟩ := h
      rw [h1] at ha
      exact absurd (List.mem_cons_self _ _) ha
    | cons d ds =>
      simp only [List.cons_append, List.cons.injEq] at h
      obtain ⟨rfl, h2⟩ := h
      obtain ⟨e1, e2⟩ := ih ds r1 r2 (fun hm => ha (List.mem_cons_of_mem _ hm))
        (fun hm => hb (List.mem_cons_of_mem _ hm)) h2
      exact ⟨by rw [e1], e2⟩

theorem mkId_inj_idx {t1 t2 : String} {i j : Nat}
    (h1 : '-' ∉ t1.data) (h2 : '-' ∉ t2.data)
    (h : mkSectionId t1 i = mkSectionId t2 j) : i = j := by
  have hd : t1.data ++ '-' :: (natRepr i).data = t2.data ++ '-' :: (natRepr j).data := by
    have hh := congrArg String.data h
    simpa [mkSectionId, strData_append] using hh
  have hsplit := append_dash_inj _ _ _ _ h1 h2 hd
  have hrepr : natRepr i = natRepr j := String.ext hsplit.2
  exact natRepr_injective hrepr
theorem noDash_parse (el : Node) (i : Nat) (tag u : String) :
    '-' ∉ (parse_section el i tag u).type.data := by
  show '-' ∉ (determine_section_type tag
    ((el.cssTags ["h1", "h2", "h3", "h4", "h5", "h6"]).filterMap
      (fun h => let t := h.textStrip; if t != "" then some t else none))
    el.textStrip).data
  exact noDash_determine _ _ _

theorem parse_section_id (el : Node) (i : Nat) (tag u : String) :
    (parse_section el i tag u).id = mkSectionId (parse_section el i tag u).type i :=
  rfl

theorem sections_go_mem_id (keep : Section → Bool) (u : String) :
    ∀ (cands : List (Node × String)) (i : Nat) (s : Section),
      s ∈ sections_go keep u cands i →
      ∃ j, i ≤ j ∧ s.id = mkSectionId s.type j ∧ '-' ∉ s.type.data := by
  intro cands
  induction cands with
  | nil => intro i s h; simp [sections_go] at h
  | cons p rest ih =>
    intro i s h
    obtain ⟨el, tag⟩ := p
    simp only [sections_go] at h
    by_cases hk : keep (parse_section el i tag u) = true
    · rw [if_pos hk] at h
      rcases List.mem_cons.mp h with heq | hmem
      · subst heq
        exact ⟨i, Nat.le_refl i, parse_section_id el i tag u, noDash_parse el i tag u⟩
      · obtain ⟨j, hj, hid, hnd⟩ := ih (i + 1) s hmem
        exact ⟨j, by omega, hid, hnd⟩
    · rw [if_neg hk] at h
      exact ih i s h

theorem sections_go_nodup (keep : Section → Bool) (u : String) :
    ∀ (cands : List (Node × String)) (i : Nat),
      ((sections_go keep u cands i).map Section.id).Nodup := by
  intro cands
  induction cands with
  | nil => intro i; simp [sections_go]
  | cons p rest ih =>
    intro i
    obtain ⟨el, tag⟩ := p
    simp only [sections_go]
    by_cases hk : keep (parse_section el i tag u) = true
    · rw [if_pos hk]
      simp only [List.map_cons]
      rw [List.nodup_cons]
      refine ⟨?_, ih (i + 1)⟩
      intro hmem
      simp only [List.mem_map] at hmem
      obtain ⟨s, hs, hid⟩ := hmem
      obtain ⟨j, hj, hsid, hnd⟩ := sections_go_mem_id keep u rest (i + 1) s hs
      rw [hsid, parse_section_id el i tag u] at hid
      have := mkId_inj_idx hnd (noDash_parse el i tag u) hid
      omega
    · rw [if_neg hk]
      exact ih i

theorem extract_sections_of_semantic (d : Doc) (u : String)
    (h : (semantic_sections d u).isEmpty = false) :
    extract_sections d u = semantic_sections d u := by
  simp [extract_sections, h]

theorem extract_sections_of_div (d : Doc) (u : String)
    (h1 : (semantic_sections d u).isEmpty = true)
    (h2 : (div_sections d u).isEmpty = false) :
    extract_sections d u = div_sections d u := by
  simp [extract_sections, h1, h2]

theorem extract_sections_of_body (d : Doc) (u : String) (b : Node)
    (h1 : (semantic_sections d u).isEmpty = true)
    (h2 : (div_sections d u).isEmpty = true)
    (hb : d.cssFirstTag "body" = some b) :
    extract_sections d u = [parse_section b 0 "section" u] := by
  simp [extract_sections, h1, h2, hb]

theorem extract_sections_of_nothing (d : Doc) (u : String)
    (h1 : (semantic_sections d u).isEmpty = true)
    (h2 : (div_sections d u).isEmpty = true)
    (hb : d.cssFirstTag "body" = none) :
    extract_sections d u = [create_empty_section u] := by
  simp [extract_sections, h1, h2, hb]

theorem extract_sections_ne_nil (d : Doc) (u : String) :
    extract_sections d u ≠ [] := by
  cases h1 : (semantic_sections d u).isEmpty with
  | false =>
    rw [extract_sections_of_semantic d u h1]
    intro hnil
    rw [hnil] at h1
    simp at h1
  | true =>
    cases h2 : (div_sections d u).isEmpty with
    | false =>
      rw [extract_sections_of_div d u h1 h2]
      intro hnil
      rw [hnil] at h2
      simp at h2
    | true =>
      cases hb : d.cssFirstTag "body" with
      | some b => simp [extract_sections_of_body d u b h1 h2 hb]
      | none => simp [extract_sections_of_nothing d u h1 h2 hb]

theorem extract_sections_id_nodup (d : Doc) (u : String) :
    ((extract_sections d u).map Section.id).Nodup := by
  cases h1 : (semantic_sections d u).isEmpty with
  | false =>
    rw [extract_sections_of_semantic d u h1]
    exact sections_go_nodup _ u _ 0
  | true =>
    cases h2 : (div_sections d u).isEmpty with
    | false =>
      rw [extract_sections_of_div d u h1 h2]
      exact sections_go_nodup _ u _ 0
    | true =>
      cases hb : d.cssFirstTag "body" with
      | some b => simp [extract_sections_of_body d u b h1 h2 hb]
      | none => simp [extract_sections_of_nothing d u h1 h2 hb]

theorem splitScheme_http (t : List Char) :
    splitSchemeL ("http://".data ++ t) = some ("http".data, '/' :: '/' :: t) := rfl

theorem splitScheme_https (t : List Char) :
    splitSchemeL ("https://".data ++ t) = some ("https".data, '/' :: '/' :: t) := rfl

theorem splitScheme_colon_http (r : List Char) :
    splitSchemeL ("http".data ++ ':' :: r) = some ("http".data, r) := rfl

theorem splitScheme_colon_https (r : List Char) :
    splitSchemeL ("https".data ++ ':' :: r) = some ("https".data, r) := rfl

theorem validate_cases {u : String} (h : validate_url u = true) :
    (∃ t, u.data = "http://".data ++ t) ∨ (∃ t, u.data = "https://".data ++ t) := by
  unfold validate_url at h
  rw [Bool.or_eq_true] at h
  rcases h with h | h
  · exact Or.inl (isPrefixOf_exists h)
  · exact Or.inr (isPrefixOf_exists h)

theorem urlsplit_base_scheme {u : String} (h : validate_url u = true) :
    (pyUrlsplitL u.data []).scheme = "http".data ∨
    (pyUrlsplitL u.data []).scheme = "https".data := by
  rcases validate_cases h with ⟨t, ht⟩ | ⟨t, ht⟩
  · left
    rw [ht]
    simp only [pyUrlsplitL, splitScheme_http]
    rfl
  · right
    rw [ht]
    simp only [pyUrlsplitL, splitScheme_https]
    rfl

theorem pyUrlsplitL_scheme_cases (url ds : List Char) :
    (pyUrlsplitL url ds).scheme = ds ∨
    ∃ s r, splitSchemeL url = some (s, r) ∧
      (pyUrlsplitL url ds).scheme = s.map Char.toLower := by
  unfold pyUrlsplitL
  cases h : splitSchemeL url with
  | none => exact Or.inl rfl
  | some sr => exact Or.inr ⟨sr.1, sr.2, rfl, rfl⟩

theorem urlunsplitL_shape (p : SplitUrl) (h : p.scheme.isEmpty = false) :
    ∃ r, urlunsplitL p = p.scheme ++ ':' :: r := by
  unfold urlunsplitL
  split_ifs <;>
    first
      | (refine ⟨_, ?_⟩; simp [List.append_assoc])
      | simp_all

theorem abs_of_unsplit (p : SplitUrl)
    (h : p.scheme = "http".data ∨ p.scheme = "https".data) :
    (splitSchemeL (urlunsplitL p)).isSome = true := by
  have hne : p.scheme.isEmpty = false := by rcases h with h | h <;> rw [h] <;> rfl
  obtain ⟨r, hr⟩ := urlunsplitL_shape p hne
  rw [hr]
  rcases h with h | h <;> rw [h]
  · rw [splitScheme_colon_http r]; rfl
  · rw [splitScheme_colon_https r]; rfl

theorem urljoin_absolute (base url : String) (h : validate_url base = true) :
    isAbsoluteUrl (urljoin base url) = true := by
  show (splitSchemeL (pyUrljoinL base.data url.data)).isSome = true
  have hbs := urlsplit_base_scheme h
  have hbne : base.data.isEmpty = false := by
    rcases validate_cases h with ⟨t, ht⟩ | ⟨t, ht⟩ <;> rw [ht] <;> rfl
  have hbase_abs : (splitSchemeL base.data).isSome = true := by
    rcases validate_cases h with ⟨t, ht⟩ | ⟨t, ht⟩
    · rw [ht, splitScheme_http]; rfl
    · rw [ht, splitScheme_https]; rfl
  unfold pyUrljoinL
  rw [hbne]
  simp only [Bool.false_eq_true, if_false]
  by_cases hu : url.data.isEmpty = true
  · rw [if_pos hu]
    exact hbase_abs
  · rw [if_neg hu]
    set B := pyUrlsplitL base.data [] with hB
    set U := pyUrlsplitL url.data B.scheme with hU
    have hrel : usesRelative.contains B.scheme = true := by
      rcases hbs with hsch | hsch <;> rw [hsch] <;> rfl
    by_cases hC : (U.scheme != B.scheme || !(usesRelative.contains U.scheme)) = true
    · rw [if_pos hC]
      rcases pyUrlsplitL_scheme_cases url.data B.scheme with hdef | ⟨s, r, hsome, _⟩
      · exfalso
        rw [← hU] at hdef
        rw [hdef, bne_self_eq_false, hrel] at hC
        simp at hC
      · rw [hsome]
        rfl
    · rw [if_neg hC]
      have hUS : U.scheme = B.scheme := by
        rcases Bool.not_eq_true _ ▸ hC with hC'
        rw [Bool.or_eq_false_iff] at hC'
        exact eq_of_beq (by simpa [bne] using hC'.1)
      have hUsch : U.scheme = "http".data ∨ U.scheme = "https".data := by
        rw [hUS]; exact hbs
      split_ifs <;> exact abs_of_unsplit _ hUsch
theorem try_next_links_inv {σ : Type} (pm : PageModel σ) (u0 : String) :
    ∀ (sels : List String) (s : σ) (cur : String) (visited : List String),
      visited.head? = some u0 → visited.Nodup →
      (try_next_links pm sels s cur visited).2.2.1.head? = some u0 ∧
      (try_next_links pm sels s cur visited).2.2.1.Nodup := by
  intro sels
  induction sels with
  | nil =>
    intro s cur visited h1 h2
    exact ⟨h1, h2⟩
  | cons sel rest ih =>
    intro s cur visited h1 h2
    simp only [try_next_links]
    cases hq : pm.querySelector s sel with
    | none => exact ih s cur visited h1 h2
    | some hd =>
      rcases hc : pm.click s hd with ⟨ok1, s1⟩
      simp only [hc]
      cases ok1 with
      | false =>
        rw [if_neg Bool.false_ne_true]
        exact ih s1 cur visited h1 h2
      | true =>
        rw [if_pos rfl]
        rcases hw : pm.waitLoadState s1 with ⟨ok2, s2⟩
        simp only [hw]
        cases ok2 with
        | false =>
          rw [if_neg Bool.false_ne_true]
          exact ih s2 cur visited h1 h2
        | true =>
          rw [if_pos rfl]
          by_cases hnew : (pm.currentUrl s2 != cur && !(visited.contains (pm.currentUrl s2))) = true
          · rw [if_pos hnew]
            rw [Bool.and_eq_true] at hnew
            have hnotmem : pm.currentUrl s2 ∉ visited := by
              have hc2 := hnew.2
              simp only [Bool.not_eq_true'] at hc2
              intro hmem
              have hcon : visited.contains (pm.currentUrl s2) = true := by simpa using hmem
              rw [hcon] at hc2
              simp at hc2
            obtain ⟨v0, vrest, hvis⟩ : ∃ v0 vrest, visited = v0 :: vrest := by
              cases visited with
              | nil => simp at h1
              | cons a b => exact ⟨a, b, rfl⟩
            constructor
            · rw [hvis] at h1 ⊢
              simpa using h1
            · rw [List.nodup_append]
              exact ⟨h2, List.nodup_singleton _,
                fun a ha hb => by simp at hb; rw [hb] at ha; exact hnotmem ha⟩
          · rw [if_neg hnew]
            exact ⟨h1, h2⟩

theorem pagination_rounds_inv {σ : Type} (pm : PageModel σ) (u0 : String) :
    ∀ (depth : Nat) (s : σ) (cur : String) (visited : List String) (flag : Bool),
      visited.head? = some u0 → visited.Nodup →
      (pagination_rounds pm depth s cur visited flag).2.1.head? = some u0 ∧
      (pagination_rounds pm depth s cur visited flag).2.1.Nodup := by
  intro depth
  induction depth with
  | zero =>
    intro s cur visited flag h1 h2
    exact ⟨h1, h2⟩
  | succ n ih =>
    intro s cur visited flag h1 h2
    simp only [pagination_rounds]
    rcases ht : try_next_links pm next_selectors s cur visited with ⟨s1, cur1, visited1, progressed⟩
    have hinv := try_next_links_inv pm u0 next_selectors s cur visited h1 h2
    rw [ht] at hinv
    simp only [ht]
    by_cases hf : (!(flag || progressed)) = true
    · rw [if_pos hf]
      exact hinv
    · rw [if_neg hf]
      exact ih s1 cur1 visited1 (flag || progressed) hinv.1 hinv.2

theorem perform_scroll_pagination_inv {σ : Type} (pm : PageModel σ) (u0 : String)
    (s : σ) (st : EngineState)
    (h1 : st.visited_pages.head? = some u0) (h2 : st.visited_pages.Nodup) :
    (perform_scroll_pagination pm s st).2.visited_pages.head? = some u0 ∧
    (perform_scroll_pagination pm s st).2.visited_pages.Nodup := by
  simp only [perform_scroll_pagination]
  rcases hp : pagination_rounds pm 3 s (pm.currentUrl s) st.visited_pages false
    with ⟨s1, visited1, flag⟩
  have hinv := pagination_rounds_inv pm u0 3 s (pm.currentUrl s) st.visited_pages false h1 h2
  rw [hp] at hinv
  simp only [hp]
  by_cases hc : (!flag || decide (visited1.length < 3)) = true
  · rw [if_pos hc]
    rcases hs : scroll_rounds pm 3 s1 st.scroll_count with ⟨s2, count⟩
    simp only [hs]
    exact hinv
  · rw [if_neg hc]
    exact hinv

theorem fetch_with_playwright_pages_inv {σ : Type} (pm : PageModel σ)
    (goto : GotoOutcome σ) (st : EngineState) (u0 : String)
    (h1 : st.visited_pages.head? = some u0) (h2 : st.visited_pages.Nodup) :
    (∀ d1 st2, fetch_with_playwright pm goto st = Except.ok (d1, st2) →
      st2.visited_pages.head? = some u0 ∧ st2.visited_pages.Nodup) ∧
    (∀ msg st2, fetch_with_playwright pm goto st = Except.error (msg, st2) →
      st2.visited_pages.head? = some u0 ∧ st2.visited_pages.Nodup) := by
  cases goto with
  | ok s0 =>
    constructor
    · intro d1 st2 h
      simp only [fetch_with_playwright] at h
      rcases hpc : perform_clicks pm (remove_noise pm (pm.wait s0 2000)) st.clicks_performed
        with ⟨s3, clicks⟩
      rw [hpc] at h
      rcases hps : perform_scroll_pagination pm s3 { st with clicks_performed := clicks }
        with ⟨s4, st2'⟩
      rw [hps] at h
      simp only [Except.ok.injEq, Prod.mk.injEq] at h
      obtain ⟨-, hst⟩ := h
      subst hst
      have := perform_scroll_pagination_inv pm u0 s3 { st with clicks_performed := clicks } h1 h2
      rw [hps] at this
      exact this
    · intro msg st2 h
      simp only [fetch_with_playwright] at h
      rcases hpc : perform_clicks pm (remove_noise pm (pm.wait s0 2000)) st.clicks_performed
        with ⟨s3, clicks⟩
      rw [hpc] at h
      rcases hps : perform_scroll_pagination pm s3 { st with clicks_performed := clicks }
        with ⟨s4, st2'⟩
      rw [hps] at h
      simp at h
  | timeout m s0 =>
    constructor
    · intro d1 st2 h
      simp only [fetch_with_playwright, Except.ok.injEq, Prod.mk.injEq] at h
      obtain ⟨-, hst⟩ := h
      subst hst
      exact ⟨h1, h2⟩
    · intro msg st2 h
      simp [fetch_with_playwright] at h
  | fail m =>
    constructor
    · intro d1 st2 h
      simp [fetch_with_playwright] at h
    · intro msg st2 h
      simp only [fetch_with_playwright, Except.error.injEq, Prod.mk.injEq] at h
      obtain ⟨-, hst⟩ := h
      subst hst
      exact ⟨h1, h2⟩

theorem fetch_with_playwright_error_goto {σ : Type} (pm : PageModel σ)
    (goto : GotoOutcome σ) (st : EngineState) (msg : String) (st2 : EngineState)
    (h : fetch_with_playwright pm goto st = Except.error (msg, st2)) :
    goto = GotoOutcome.fail msg := by
  cases goto with
  | ok s0 =>
    exfalso
    simp only [fetch_with_playwright] at h
    rcases hpc : perform_clicks pm (remove_noise pm (pm.wait s0 2000)) st.clicks_performed
      with ⟨s3, clicks⟩
    rw [hpc] at h
    rcases hps : perform_scroll_pagination pm s3 { st with clicks_performed := clicks }
      with ⟨s4, st2'⟩
    rw [hps] at h
    simp at h
  | timeout m s0 => simp [fetch_with_playwright] at h
  | fail m =>
    simp only [fetch_with_playwright, Except.error.injEq, Prod.mk.injEq] at h
    rw [h.1]

/-! ### Claim theorems -/

/-- C1 (counterexample): the claim "for every input URL, the ScrapeResult
returned by `ScraperEngine.scrape` has a non-empty sections list" is false
as stated: when the static fetch raises a connection error, `scrape`
returns the partial result whose `sections` is the empty list. -/
theorem c1_counterexample_fetch_error :
    (scrape envFailC1 "http://example.com" "2024-01-01T00:00:00+00:00").sections = [] := rfl

/-- C1 (amended): on every run in which no exception reaches `scrape`'s
outer handler — the static fetch succeeds and, when rendering is needed,
navigation does not hard-fail — the returned sections list is non-empty;
moreover when all three extraction tiers find nothing (in particular no
`<body>` exists), a single placeholder section of type `"unknown"` is
emitted in its place. -/
theorem c1_sections_nonempty_on_success {σ : Type} (env : ScrapeEnv σ)
    (url scrapedAt : String) (d : Doc)
    (hfetch : env.fetchStatic = Except.ok d)
    (hrender : ∀ msg, env.goto ≠ GotoOutcome.fail msg) :
    (scrape env url scrapedAt).sections ≠ [] ∧
    (∀ (d' : Doc) (u' : String),
      semantic_sections d' u' = [] → div_sections d' u' = [] →
      Doc.cssFirstTag d' "body" = none →
      extract_sections d' u' = [create_empty_section u'] ∧
      (create_empty_section u').type = "unknown") := by
  constructor
  · simp only [scrape, hfetch]
    by_cases hjs : needs_js_rendering d = true
    · rw [if_pos hjs]
      rcases hfp : fetch_with_playwright env.pm env.goto
          { initEngineState url with
            errors := (initEngineState url).errors ++
              [⟨"Static content insufficient, using JS rendering", "detection"⟩] }
        with ⟨msg, st2⟩ | ⟨d1, st2⟩
      · exact absurd (fetch_with_playwright_error_goto _ _ _ _ _ hfp) (hrender msg)
      · simp only [hfp]
        exact extract_sections_ne_nil d1 url
    · rw [if_neg hjs]
      exact extract_sections_ne_nil d url
  · intro d' u' h1 h2 hb
    refine ⟨extract_sections_of_nothing d' u' ?_ ?_ hb, rfl⟩
    · rw [h1]; rfl
    · rw [h2]; rfl

/-- C1 (witness for the amended claim): a successful static scrape of a
document with a long body yields a non-empty sections list. -/
theorem c1_witness :
    (scrape envOkC1 "http://example.com" "2024-01-01T00:00:00+00:00").sections ≠ [] :=
  (c1_sections_nonempty_on_success envOkC1 "http://example.com"
    "2024-01-01T00:00:00+00:00" docLong rfl (fun _ h => by cases h)).1

/-- C2: for every section produced by `_parse_section`, `truncated` holds
iff the serialized HTML of the candidate element is longer than 1000
characters; when it holds, `rawHtml` is the first 1000 characters of
that markup followed by `"..."`, and otherwise `rawHtml` is the markup
unchanged. -/
theorem c2_rawhtml_truncation (el : Node) (i : Nat) (tag u : String) :
    ((parse_section el i tag u).truncated = true ↔ pyLen el.rawHtml > 1000) ∧
    (pyLen el.rawHtml > 1000 →
      (parse_section el i tag u).rawHtml = pyTake 1000 el.rawHtml ++ "...") ∧
    (¬ pyLen el.rawHtml > 1000 →
      (parse_section el i tag u).rawHtml = el.rawHtml) := by
  have htr : (parse_section el i tag u).truncated = decide (pyLen el.rawHtml > 1000) := rfl
  have hraw : (parse_section el i tag u).rawHtml =
      if pyLen el.rawHtml > 1000 then pyTake 1000 el.rawHtml ++ "..."
      else el.rawHtml := rfl
  refine ⟨?_, ?_, ?_⟩
  · rw [htr]
    exact decide_eq_true_iff
  · intro h
    rw [hraw, if_pos h]
  · intro h
    rw [hraw, if_neg h]

set_option maxRecDepth 10000 in
/-- C2 (witness): a 1200-character markup is truncated to 1000 characters
plus the marker; a 3-character markup passes through unchanged. -/
theorem c2_witness :
    (parse_section elemBigRaw 0 "section" "https://e.com").rawHtml =
      pyTake 1000 elemBigRaw.rawHtml ++ "..." ∧
    (parse_section elemSmallRaw 0 "section" "https://e.com").rawHtml =
      elemSmallRaw.rawHtml :=
  ⟨(c2_rawhtml_truncation elemBigRaw 0 "section" "https://e.com").2.1 (by decide),
   (c2_rawhtml_truncation elemSmallRaw 0 "section" "https://e.com").2.2 (by decide)⟩

/-- C5: if the static fetch raises, `scrape` still returns a result, with
empty sections, empty title and otherwise default meta, and exactly one
`fetch`-phase error in its error list (the re-raised exception also adds
the outer handler's `scrape`-phase record). -/
theorem c5_fetch_error_degraded_result {σ : Type} (env : ScrapeEnv σ)
    (url scrapedAt msg : String)
    (h : env.fetchStatic = Except.error msg) :
    (scrape env url scrapedAt).sections = [] ∧
    (scrape env url scrapedAt).meta =
      { title := "", description := "", language := "en", canonical := none } ∧
    (scrape env url scrapedAt).errors = [⟨msg, "fetch"⟩, ⟨msg, "scrape"⟩] ∧
    ((scrape env url scrapedAt).errors.filter (fun e => e.phase == "fetch")).length = 1 := by
  refine ⟨?_, ?_, ?_, ?_⟩ <;> simp [scrape, h, initEngineState]

/-- C5 (witness): concrete connection-error environment. -/
theorem c5_witness :
    (scrape envFailC5 "http://example.com" "T").sections = [] ∧
    (scrape envFailC5 "http://example.com" "T").meta =
      { title := "", description := "", language := "en", canonical := none } ∧
    (scrape envFailC5 "http://example.com" "T").errors =
      [⟨"ConnectError: All connection attempts failed", "fetch"⟩,
       ⟨"ConnectError: All connection attempts failed", "scrape"⟩] ∧
    ((scrape envFailC5 "http://example.com" "T").errors.filter
      (fun e => e.phase == "fetch")).length = 1 :=
  c5_fetch_error_degraded_result envFailC5 "http://example.com" "T"
    "ConnectError: All connection attempts failed" rfl

/-- C6: in every ScrapeResult, the first entry of `interactions.pages` is
the originally requested URL and `pages` contains no duplicate URLs (the
pagination loop appends a URL only when it differs from the current one
and was not visited before). -/
theorem c6_pages_head_and_nodup {σ : Type} (env : ScrapeEnv σ)
    (url scrapedAt : String) :
    (scrape env url scrapedAt).interactions.pages.head? = some url ∧
    (scrape env url scrapedAt).interactions.pages.Nodup := by
  have hinit1 : (initEngineState url).visited_pages.head? = some url := rfl
  have hinit2 : (initEngineState url).visited_pages.Nodup := by
    simp [initEngineState]
  cases hf : env.fetchStatic with
  | error msg =>
    simp only [scrape, hf]
    exact ⟨rfl, by simp [initEngineState]⟩
  | ok d =>
    simp only [scrape, hf]
    by_cases hjs : needs_js_rendering d = true
    · rw [if_pos hjs]
      have hdet1 : ({ initEngineState url with
          errors := (initEngineState url).errors ++
            [⟨"Static content insufficient, using JS rendering", "detection"⟩]
            : EngineState }).visited_pages.head? = some url := rfl
      have hdet2 : ({ initEngineState url with
          errors := (initEngineState url).errors ++
            [⟨"Static content insufficient, using JS rendering", "detection"⟩]
            : EngineState }).visited_pages.Nodup := by simp [initEngineState]
      have hfp_inv := fetch_with_playwright_pages_inv env.pm env.goto
        { initEngineState url with
          errors := (initEngineState url).errors ++
            [⟨"Static content insufficient, using JS rendering", "detection"⟩] }
        url hdet1 hdet2
      rcases hfp : fetch_with_playwright env.pm env.goto
          { initEngineState url with
            errors := (initEngineState url).errors ++
              [⟨"Static content insufficient, using JS rendering", "detection"⟩] }
        with ⟨msg, st2⟩ | ⟨d1, st2⟩
      · simp only [hfp]
        exact hfp_inv.2 msg st2 hfp
      · simp only [hfp]
        exact hfp_inv.1 d1 st2 hfp
    · rw [if_neg hjs]
      exact ⟨hinit1, hinit2⟩

/-- C8: section classification and labeling are deterministic: two runs
of `_determine_section_type` and `_generate_label` on identical tag,
headings and flattened text produce the identical type and label. -/
theorem c8_classification_deterministic (tag1 tag2 : String)
    (hs1 hs2 : List String) (txt1 txt2 : String)
    (ht : tag1 = tag2) (hh : hs1 = hs2) (hx : txt1 = txt2) :
    determine_section_type tag1 hs1 txt1 = determine_section_type tag2 hs2 txt2 ∧
    generate_label hs1 txt1 (determine_section_type tag1 hs1 txt1) =
      generate_label hs2 txt2 (determine_section_type tag2 hs2 txt2) := by
  subst ht hh hx
  exact ⟨rfl, rfl⟩

/-- C8 (witness): two runs on a concrete pricing-flavoured input agree. -/
theorem c8_witness :
    determine_section_type "div" ["Plans"] "our pricing is simple" =
      determine_section_type "div" ["Plans"] "our pricing is simple" ∧
    generate_label ["Plans"] "our pricing is simple"
        (determine_section_type "div" ["Plans"] "our pricing is simple") =
      generate_label ["Plans"] "our pricing is simple"
        (determine_section_type "div" ["Plans"] "our pricing is simple") :=
  c8_classification_deterministic "div" "div" ["Plans"] ["Plans"]
    "our pricing is simple" "our pricing is simple" rfl rfl rfl

/-- C3: `_needs_js_rendering` returns true iff (1) the document has no
`<body>`, or (2) the stripped body text is shorter than 200 characters,
or (3) the raw markup contains one of the fixed SPA fingerprints and one
of the containers `#root`, `#__next`, `#app` exists with stripped text
shorter than 100 characters; otherwise it returns false. -/
theorem c3_needs_js_rendering_iff (d : Doc) :
    needs_js_rendering d = true ↔
      (d.cssFirstTag "body" = none ∨
       (∃ body, d.cssFirstTag "body" = some body ∧ pyLen body.textStrip < 200) ∨
       ((∃ ind ∈ js_indicators, pyContains d.htmlStr ind = true) ∧
        (∃ i ∈ root_container_ids, ∃ el, d.cssFirstId i = some el ∧
          pyLen el.textStrip < 100))) := by
  unfold needs_js_rendering
  cases hb : d.cssFirstTag "body" with
  | none => simp
  | some body =>
    dsimp only
    by_cases hlen : pyLen body.textStrip < 200
    · rw [if_pos hlen]
      constructor
      · intro _
        exact Or.inr (Or.inl ⟨body, rfl, hlen⟩)
      · intro _
        rfl
    · rw [if_neg hlen]
      by_cases hind : (js_indicators.any fun ind => pyContains d.htmlStr ind) = true
      · rw [if_pos hind]
        constructor
        · intro hany
          refine Or.inr (Or.inr ⟨by simpa [List.any_eq_true] using hind, ?_⟩)
          rw [List.any_eq_true] at hany
          obtain ⟨i, hi, hcond⟩ := hany
          cases hel : d.cssFirstId i with
          | none => rw [hel] at hcond; simp at hcond
          | some el =>
            rw [hel] at hcond
            exact ⟨i, hi, el, hel, by simpa using hcond⟩
        · intro hrhs
          rcases hrhs with hnone | ⟨body', hbody', hlen'⟩ | ⟨-, i, hi, el, hel, hlt⟩
          · exact absurd hnone (by simp)
          · rw [Option.some.injEq] at hbody'
            rw [← hbody'] at hlen'
            exact absurd hlen' hlen
          · rw [List.any_eq_true]
            refine ⟨i, hi, ?_⟩
            rw [hel]
            simpa using hlt
      · rw [if_neg hind]
        constructor
        · intro hfalse
          cases hfalse
        · intro hrhs
          exfalso
          rcases hrhs with hnone | ⟨body', hbody', hlen'⟩ | ⟨⟨ind, hiind, hcont⟩, -⟩
          · exact absurd hnone (by simp)
          · rw [Option.some.injEq] at hbody'
            rw [← hbody'] at hlen'
            exact absurd hlen' hlen
          · exact hind (by rw [List.any_eq_true]; exact ⟨ind, hiind, hcont⟩)

/-- C4: for a source URL accepted by the request validator, every link
href and image src emitted in a parsed section is an absolute URL
(resolved with `urljoin`); anchors with empty/missing href and images
with neither `src` nor `data-src` are dropped rather than emitted. -/
theorem c4_urls_absolute (el : Node) (i : Nat) (tag u : String)
    (h : validate_url u = true) :
    (∀ l ∈ (parse_section el i tag u).content.links, isAbsoluteUrl l.href = true) ∧
    (∀ im ∈ (parse_section el i tag u).content.images, isAbsoluteUrl im.src = true) := by
  have hlinks : (parse_section el i tag u).content.links =
      (el.cssTags ["a"]).filterMap (fun a =>
        let href := attrGet a "href" ""
        if href != "" then some (LinkItem.mk a.textStrip (urljoin u href))
        else none) := rfl
  have himgs : (parse_section el i tag u).content.images =
      (el.cssTags ["img"]).filterMap (fun img =>
        let src0 := attrGet img "src" ""
        let src := if src0 != "" then src0 else attrGet img "data-src" ""
        if src != "" then some (ImageItem.mk (urljoin u src) (attrGet img "alt" ""))
        else none) := rfl
  constructor
  · intro l hl
    rw [hlinks, List.mem_filterMap] at hl
    obtain ⟨a, -, ha⟩ := hl
    dsimp only at ha
    by_cases hh : (attrGet a "href" "" != "") = true
    · rw [if_pos hh] at ha
      rw [Option.some.injEq] at ha
      rw [← ha]
      exact urljoin_absolute u (attrGet a "href" "") h
    · rw [if_neg hh] at ha
      cases ha
  · intro im him
    rw [himgs, List.mem_filterMap] at him
    obtain ⟨img, -, hi⟩ := him
    dsimp only at hi
    by_cases hh : ((if (attrGet img "src" "" != "") = true then attrGet img "src" ""
        else attrGet img "data-src" "") != "") = true
    · rw [if_pos hh] at hi
      rw [Option.some.injEq] at hi
      rw [← hi]
      exact urljoin_absolute u _ h
    · rw [if_neg hh] at hi
      cases hi

/-- C4 (witness): a relative href and a `data-src`-only image on a
validated source URL resolve to absolute URLs and are emitted. -/
theorem c4_witness :
    isAbsoluteUrl (urljoin "https://ex.com/a" "b/c.html") = true ∧
    isAbsoluteUrl (urljoin "https://ex.com/a" "/img/x.png") = true := by
  have h := c4_urls_absolute elemC4 0 "section" "https://ex.com/a" (by decide)
  exact ⟨h.1 ⟨"rel link", urljoin "https://ex.com/a" "b/c.html"⟩ (by decide),
         h.2 ⟨urljoin "https://ex.com/a" "/img/x.png", "pic"⟩ (by decide)⟩

/-- C7: on the Scenario C document (three `<section>` elements, one empty
of text) extraction yields exactly two sections with ids `section-0` and
`section-1`; and in general the sequentially assigned running index makes
every section id unique within a result. -/
theorem c7_section_ids :
    (extract_sections doc7 url7).map Section.id = ["section-0", "section-1"] ∧
    (extract_sections doc7 url7).length = 2 ∧
    (∀ (d : Doc) (u : String), ((extract_sections d u).map Section.id).Nodup) :=
  ⟨rfl, rfl, fun d u => extract_sections_id_nodup d u⟩

/-- C9: if a load-more button is found on the first look-up and disappears
after one successful click, exactly one click is recorded for that
pattern and the loop exits on the second look-up finding no match; and
at most 3 clicks are ever recorded per load-more pattern. -/
theorem c9_load_more_clicks {σ : Type} (pm : PageModel σ) (sel : String)
    (s s1 : σ) (hd : Nat)
    (hfind : pm.querySelector s sel = some hd)
    (hclick : pm.click s hd = (true, s1))
    (hgone : pm.querySelector (pm.wait s1 1500) sel = none) :
    load_more_attempts pm sel 3 s = (pm.wait s1 1500, [sel], 2) ∧
    (∀ (t : σ), (load_more_attempts pm sel 3 t).2.1.length ≤ 3) := by
  constructor
  · simp only [load_more_attempts, hfind, hclick, hgone]
    simp
  · have aux : ∀ (n : Nat) (t : σ), (load_more_attempts pm sel n t).2.1.length ≤ n := by
      intro n
      induction n with
      | zero => intro t; simp [load_more_attempts]
      | succ k ih =>
        intro t
        simp only [load_more_attempts]
        cases hq : pm.querySelector t sel with
        | none => simp
        | some h0 =>
          rcases hc : pm.click t h0 with ⟨ok, t1⟩
          simp only [hc]
          cases ok with
          | false =>
            rw [if_neg Bool.false_ne_true]
            simp
          | true =>
            rw [if_pos rfl]
            rcases hr : load_more_attempts pm sel k (pm.wait t1 1500) with ⟨t3, added, lk⟩
            simp only [hr]
            have := ih (pm.wait t1 1500)
            rw [hr] at this
            simpa using Nat.succ_le_succ this
    exact fun t => aux 3 t

/-- C9 (witness): the toggling page oracle records exactly one click and
stops at the second look-up. -/
theorem c9_witness :
    load_more_attempts togglePm "x" 3 true = (false, ["x"], 2) ∧
    (load_more_attempts togglePm "x" 3 false).2.1.length ≤ 3 := by
  have h := c9_load_more_clicks togglePm "x" true false 0 rfl rfl rfl
  exact ⟨h.1, h.2 false⟩

/-- C10: when the document has a `<body>` but both the semantic tier and
the div tier yield no sections, `_extract_sections` returns exactly one
section built from the entire body; this fallback applies no
non-empty-text filter, so a bodyless-text document yields a section whose
`content.text` is the empty string. -/
theorem c10_body_fallback_no_filter :
    (∀ (d : Doc) (u : String) (b : Node),
      d.cssFirstTag "body" = some b →
      semantic_sections d u = [] → div_sections d u = [] →
      extract_sections d u = [parse_section b 0 "section" u]) ∧
    extract_sections doc10 url10 = [parse_section body10 0 "section" url10] ∧
    (parse_section body10 0 "section" url10).content.text = "" := by
  refine ⟨?_, ?_, rfl⟩
  · intro d u b hb h1 h2
    exact extract_sections_of_body d u b (by rw [h1]; rfl) (by rw [h2]; rfl) hb
  · exact extract_sections_of_body doc10 url10 body10 rfl rfl rfl

/-- C10 (witness): the fallback equation applied to the concrete empty
document. -/
theorem c10_witness :
    extract_sections doc10 url10 = [parse_section body10 0 "section" url10] :=
  c10_body_fallback_no_filter.1 doc10 url10 body10 rfl rfl rfl
